import Mathlib

/-!
Shallow embedding of acrylamid's asset pipeline (`acrylamid/assets.py`).

Paths are strings, the filesystem is a partial map from paths to files
(content plus integer mtime).  Fallible filesystem reads are `Option`-valued:
`none` corresponds to a raised exception in the Python source.  The regular
expression of each writer variant (its `uses` attribute) is abstracted as the
function extracting, from the scanned text, the list of captured `file`
groups; the variants differ only in that configuration.  Python sets are
modelled as lists whose order and multiplicity no stated property observes.
-/

set_option autoImplicit false
set_option maxRecDepth 8000

namespace Acrylamid

/-! ## Python path and string primitives -/

/-- Last index of a character in a list, Python `str.rfind` restricted to the
found case (`none` corresponds to the return value `-1`). -/
def rfindN (c : Char) : List Char → Option Nat
  | [] => none
  | a :: l =>
    match rfindN c l with
    | some i => some (i + 1)
    | none => if a = c then some 0 else none

/-- First character of a string, for the absolute-path test of `join`. -/
def headChar (s : String) : Option Char := s.data.head?

/-- Last character of a string, for the trailing-separator test of `join`. -/
def lastChar (s : String) : Option Char := s.data.getLast?

/-- Prefix of the first `n` characters, Python `fp.read(n)` on a fresh
handle. -/
def strTake (s : String) (n : Nat) : String := ⟨s.data.take n⟩

/-- `posixpath.join` for two components. -/
def pathJoin (a b : String) : String :=
  if headChar b = some '/' then b
  else if a = "" then b
  else if lastChar a = some '/' then a ++ b
  else a ++ "/" ++ b

def stripTrailingSlashes (l : List Char) : List Char :=
  (l.reverse.dropWhile (fun c => c = '/')).reverse

/-- `posixpath.dirname`: everything before the last separator, with trailing
separators stripped unless the head consists only of separators. -/
def pyDirname (p : String) : String :=
  match rfindN '/' p.data with
  | none => ""
  | some i =>
    let head := p.data.take (i + 1)
    if head.all (fun c => c = '/') then ⟨head⟩ else ⟨stripTrailingSlashes head⟩

/-- Head component of `posixpath.split`, used by `Template.generate`'s
reversed-split trick. -/
def pySplitHead (p : String) : String := pyDirname p

/-- The extension part of `posixpath.splitext`: the suffix from the last dot
of the final component, provided that component has a non-dot character
before that dot; `""` otherwise. -/
def pySplitextExt (p : String) : String :=
  match rfindN '.' p.data with
  | none => ""
  | some d =>
    let s : Nat :=
      match rfindN '/' p.data with
      | none => 0
      | some i => i + 1
    if s ≤ d ∧ ((p.data.drop s).take (d - s)).any (fun c => c ≠ '.') then
      ⟨p.data.drop d⟩
    else ""

/-- Fuel-indexed core of Python `str.replace`: replaces every non-overlapping
occurrence of `old` (nonempty) left to right.  The fuel is always at least
the length of the string being scanned, so the `0` arm is never reached. -/
def pyReplaceFuel (old new : List Char) : Nat → List Char → List Char
  | _, [] => []
  | 0, s => s
  | n + 1, c :: rest =>
    if old ≠ [] ∧ old.isPrefixOf (c :: rest) then
      new ++ pyReplaceFuel old new n (rest.drop (old.length - 1))
    else
      c :: pyReplaceFuel old new n rest

/-- Python `str.replace(old, new)` with all occurrences replaced; an empty
`old` inserts `new` around every character, as CPython does. -/
def pyReplace (s old new : String) : String :=
  if old.data = [] then
    ⟨new.data ++ (s.data.map (fun c => c :: new.data)).flatten⟩
  else
    ⟨pyReplaceFuel old.data new.data s.data.length s.data⟩

/-! ## Filesystem model -/

structure File where
  content : String
  mtime : Int
  deriving DecidableEq

structure FS where
  files : String → Option File

/-- `os.path.getmtime`; `none` is the raised `OSError` for a missing file. -/
def FS.getmtime (fs : FS) (p : String) : Option Int :=
  (fs.files p).map File.mtime

/-- `os.path.isfile`. -/
def FS.isfile (fs : FS) (p : String) : Bool :=
  (fs.files p).isSome

/-- `io.open(p).read()`; `none` is the raised `IOError` for a missing file. -/
def FS.read (fs : FS) (p : String) : Option String :=
  (fs.files p).map File.content

def FS.set (fs : FS) (p : String) (f : File) : FS :=
  ⟨fun q => if q = p then some f else fs.files q⟩

def FS.remove (fs : FS) (p : String) : FS :=
  ⟨fun q => if q = p then none else fs.files q⟩

/-- `Option`-monadic `List.map`, the shape of a Python loop in which each
step may raise. -/
def mapO {α β : Type} (f : α → Option β) : List α → Option (List β)
  | [] => some []
  | a :: l =>
    match f a, mapO f l with
    | some b, some bs => some (b :: bs)
    | _, _ => none

/-- Python `max` over a (possibly empty) list; `none` is the `ValueError` on
an empty sequence. -/
def pyMax : List Int → Option Int
  | [] => none
  | x :: xs => some (xs.foldl max x)

/-- Running maximum of a list of mtimes starting from `a`. -/
def foldMax (a : Int) (l : List Int) : Int :=
  l.foldl max a

/-! ## Writer configuration and the staleness machinery -/

/-- Per-variant configuration: `uses` abstracts the include-detection regular
expression as the function returning, for a scanned text, the captured
`file` group of each match (in order). `none` models `uses = None`. -/
structure Writer where
  uses : Option (String → List String)

/-- `Writer.includesfor`: with no pattern, the empty set without reading the
file; otherwise read the first 512 characters of `join(directory, path)` and
resolve every captured reference against `dirname(path)`. -/
def Writer.includesfor (w : Writer) (fs : FS) (directory path : String) :
    Option (List String) :=
  match w.uses with
  | none => some []
  | some u =>
    (fs.read (pathJoin directory path)).map fun c =>
      (u (strTake c 512)).map fun m => pathJoin (pyDirname path) m

/-- `Writer.filter`: drop from the input every path referenced by the union of
`includesfor` over all candidates. -/
def Writer.filter (w : Writer) (fs : FS) (directory : String)
    (input : List String) : Option (List String) :=
  match mapO (fun p => w.includesfor fs directory p) input with
  | none => none
  | some css =>
    some (input.filter (fun p => !(decide (p ∈ css.flatten))))

/-- One expansion step of the include frontier:
`sum((list(includesfor(directory, p)) for p in includes), [])`. -/
def expandIncludes (w : Writer) (fs : FS) (directory : String)
    (fr : List String) : Option (List String) :=
  (mapO (fun p => w.includesfor fs directory p) fr).map List.flatten

/-- All files visited by `d` successive frontier expansions starting from
`fr` (the frontiers at depths `1..d` concatenated). -/
def collectIncludes (w : Writer) (fs : FS) (directory : String) :
    Nat → List String → Option (List String)
  | 0, _ => some []
  | d + 1, fr =>
    match expandIncludes w fs directory fr with
    | none => none
    | some fr' =>
      (collectIncludes w fs directory d fr').map (fun rest => fr' ++ rest)

/-- The `while maxdepth > 0` loop of `Writer.modified`: expand the frontier,
fold the mtimes of the new frontier and of `path` into the running maximum,
and repeat. -/
def Writer.modifiedAux (w : Writer) (fs : FS) (directory path : String) :
    Nat → List String → Int → Option Int
  | 0, _, m => some m
  | d + 1, fr, m =>
    match expandIncludes w fs directory fr with
    | none => none
    | some fr' =>
      match mapO (fun p => fs.getmtime (pathJoin directory p)) (fr' ++ [path]) with
      | none => none
      | some ms =>
        match pyMax ms with
        | none => none
        | some mx => Writer.modifiedAux w fs directory path d fr' (max mx m)

/-- `Writer.modified`: six frontier expansions starting from `[path]` with
the running maximum initialised to `-1`, then
`not isfile(dest) or mtime > getmtime(dest)`. -/
def Writer.modified (w : Writer) (fs : FS) (directory path dest : String) :
    Option Bool :=
  match Writer.modifiedAux w fs directory path 6 [path] (-1) with
  | none => none
  | some m =>
    if fs.isfile dest then (fs.getmtime dest).map (fun dm => decide (dm < m))
    else some true

/-! ## Events, pipeline state and the write operations -/

/-- The namespace string passed to every event. -/
def ns : String := "assets"

/-- Observable event records, per the spec's data model (`skip | write`). -/
inductive Event where
  | skip (namesp dest : String)
  | write (namesp dest : String)
  deriving DecidableEq

/-- Pipeline state threaded through a write: the filesystem, the emitted
events and the log lines. -/
structure St where
  fs : FS
  events : List Event
  logs : List String

def St.emit (st : St) (e : Event) : St :=
  { st with events := st.events ++ [e] }

def St.log (st : St) (s : String) : St :=
  { st with logs := st.logs ++ [s] }

def St.setFile (st : St) (p : String) (f : File) : St :=
  { st with fs := st.fs.set p f }

def St.unlink (st : St) (p : String) : St :=
  { st with fs := st.fs.remove p }

/-- Modelled from the spec: `acrylamid.helpers.mkfile` is not under `src/`.
Per the spec it persists the generated content to `dest` through an atomic
write and emits a write event; `dryrun` suppresses the persist step while the
event is still emitted, so reporting stays accurate. -/
def mkfile (st : St) (content : String) (dest : String) (now : Int)
    (dryrun : Bool) : St :=
  let st := st.emit (Event.write ns dest)
  if dryrun then st else st.setFile dest ⟨content, now⟩

/-- `Writer.generate` of the base writer: `io.open(src, 'rb')`, the raw
file content. -/
def Writer.generate : FS → String → String → Option String :=
  fun fs src _dest => fs.read src

/-- `Writer.write`: skip when not forced and not modified, otherwise generate
and persist.  `gen` is the dynamically dispatched `self.generate`; `now` is
the clock value used for a persisted file's mtime. -/
def Writer.write (w : Writer) (gen : FS → String → String → Option String)
    (st : St) (directory path dest : String) (force dryrun : Bool)
    (now : Int) : Option St :=
  match (if force then some true else w.modified st.fs directory path dest) with
  | none => none
  | some false => some (st.emit (Event.skip ns dest))
  | some true =>
    (gen st.fs (pathJoin directory path) dest).map fun c =>
      mkfile st c dest now dryrun

/-- `HTML.write`: a no-op guard for files inside the theme directory, then
delegation to `Writer.write` with the dispatched `generate`. -/
def HTML.write (w : Writer) (gen : FS → String → String → Option String)
    (theme : String) (st : St) (directory path dest : String)
    (force dryrun : Bool) (now : Int) : Option St :=
  if directory = theme then some st
  else Writer.write w gen st directory path dest force dryrun now

/-- `XML` inherits `write` unchanged from `HTML`. -/
def XML.write (w : Writer) (gen : FS → String → String → Option String)
    (theme : String) (st : St) (directory path dest : String)
    (force dryrun : Bool) (now : Int) : Option St :=
  HTML.write w gen theme st directory path dest force dryrun now

/-- The `split(src[::-1])[0][::-1]` dance of `Template.generate`: the source
path with everything from its first separator on reversed-split away. -/
def Template.relpath (src : String) : String :=
  ⟨(pySplitHead ⟨src.data.reverse⟩).data.reverse⟩

/-- `Template.generate`: render through the templating engine, an external
collaborator abstracted as `render`. -/
def Template.generate (render : String → Option String) :
    FS → String → String → Option String :=
  fun _fs src _dest => render (Template.relpath src)

/-- The destination computed by `Template.write`:
`dest.replace(splitext(path)[-1], target)`. -/
def Template.destFor (path dest target : String) : String :=
  pyReplace dest (pySplitextExt path) target

/-- `Template.write`: rewrite the destination's extension, then delegate to
the inherited (guarded) write with the templating `generate`. -/
def Template.write (w : Writer) (render : String → Option String)
    (theme target : String) (st : St) (directory path dest : String)
    (force dryrun : Bool) (now : Int) : Option St :=
  HTML.write w (Template.generate render) theme st directory path
    (Template.destFor path dest target) force dryrun now

/-- The error value of a failed external command: exception class name and
message, as formatted into the log by `System.write`. -/
structure SysErr where
  cls : String
  msg : String
  deriving DecidableEq

/-- The destination computed by `System.write`:
`dest.replace(splitext(join(directory, path))[-1], target)`. -/
def System.destFor (directory path dest target : String) : String :=
  pyReplace dest (pySplitextExt (pathJoin directory path)) target

/-- `System.write`: rewrite the destination's extension, skip when fresh,
otherwise create a temporary file in the cache directory (`tmp`, the path
`mkstemp` returns), run the external command (whose outcome is the `sysRes`
parameter), and either persist its output through `mkfile` or, on failure,
delete an existing destination and log; the temporary file is unlinked in the
`finally` block.  The `chmod` permission adjustment is not tracked. -/
def System.write (w : Writer) (target : String) (st : St)
    (directory path dest : String) (force dryrun : Bool) (tmp : String)
    (now : Int) (sysRes : Except SysErr String) : Option St :=
  let dest := System.destFor directory path dest target
  match (if force then some true else w.modified st.fs directory path dest) with
  | none => none
  | some false => some (st.emit (Event.skip ns dest))
  | some true =>
    let st := st.setFile tmp ⟨"", now⟩
    match sysRes with
    | Except.error e =>
      let st := if st.fs.isfile dest then st.unlink dest else st
      let st := st.log (e.cls ++ ": " ++ e.msg)
      some (st.unlink tmp)
    | Except.ok res =>
      let st := st.setFile tmp ⟨res, now⟩
      match st.fs.read tmp with
      | none => none
      | some c => some ((mkfile st c dest now dryrun).unlink tmp)

/-- The per-bucket loop of `worker`: write each file in turn; an uncaught
exception (`none`) aborts the remainder of the bucket. -/
def worker (writeOne : St → String → Option St) : St → List String → Option St
  | st, [] => some st
  | st, p :: ps =>
    match writeOne st p with
    | none => none
    | some st' => worker writeOne st' ps

/-! ## Helper lemmas about maxima and monadic maps -/

lemma foldMax_cons (a x : Int) (l : List Int) :
    foldMax a (x :: l) = foldMax (max a x) l := rfl

lemma foldMax_append (a : Int) (l₁ l₂ : List Int) :
    foldMax a (l₁ ++ l₂) = foldMax (foldMax a l₁) l₂ := by
  simp [foldMax, List.foldl_append]

lemma foldMax_max_left (a b : Int) (l : List Int) :
    foldMax (max a b) l = max a (foldMax b l) := by
  induction l generalizing b with
  | nil => rfl
  | cons x xs ih =>
    rw [foldMax_cons, max_assoc, ih, foldMax_cons]

lemma le_foldMax (a : Int) (l : List Int) : a ≤ foldMax a l := by
  induction l generalizing a with
  | nil => exact le_refl a
  | cons x xs ih =>
    rw [foldMax_cons]
    exact le_trans (le_max_left a x) (ih _)

lemma pyMax_append_singleton (ms : List Int) (pm : Int) :
    pyMax (ms ++ [pm]) = some (foldMax pm ms) := by
  cases ms with
  | nil => rfl
  | cons y ys =>
    show some (foldMax y (ys ++ [pm])) = some (foldMax pm (y :: ys))
    rw [foldMax_append]
    have h1 : foldMax (foldMax y ys) [pm] = max (foldMax y ys) pm := rfl
    have h2 : foldMax pm (y :: ys) = max pm (foldMax y ys) := by
      rw [foldMax_cons, foldMax_max_left]
    rw [h1, h2, max_comm]

lemma mapO_singleton {α β : Type} (f : α → Option β) (a : α) :
    mapO f [a] = (f a).map (fun b => [b]) := by
  cases h : f a <;> simp [mapO, h]

lemma mapO_append {α β : Type} (f : α → Option β) (l₁ l₂ : List α) :
    mapO f (l₁ ++ l₂) =
      (mapO f l₁).bind fun b₁ => (mapO f l₂).map fun b₂ => b₁ ++ b₂ := by
  induction l₁ with
  | nil =>
    show mapO f l₂ =
      (some []).bind fun b₁ => (mapO f l₂).map fun b₂ => b₁ ++ b₂
    cases h : mapO f l₂ <;> simp [h]
  | cons a l ih =>
    show (match f a, mapO f (l ++ l₂) with
      | some b, some bs => some (b :: bs)
      | _, _ => none) =
      (match f a, mapO f l with
      | some b, some bs => some (b :: bs)
      | _, _ => none).bind fun b₁ => (mapO f l₂).map fun b₂ => b₁ ++ b₂
    rw [ih]
    cases hfa : f a <;> cases hml : mapO f l <;> cases hl2 : mapO f l₂ <;>
      simp [hfa, hml, hl2]

lemma mapO_congr {α β : Type} {f g : α → Option β} {l : List α}
    (h : ∀ a ∈ l, f a = g a) : mapO f l = mapO g l := by
  induction l with
  | nil => rfl
  | cons a l ih =>
    show (match f a, mapO f l with
      | some b, some bs => some (b :: bs)
      | _, _ => none) = _
    rw [h a (by simp), ih (fun x hx => h x (by simp [hx]))]
    rfl

lemma mapO_mem_flatten {α β : Type} (f : α → Option (List β)) (l : List α)
    (cs : List (List β)) (h : mapO f l = some cs) (x : β) :
    x ∈ cs.flatten ↔ ∃ q ∈ l, ∃ c, f q = some c ∧ x ∈ c := by
  induction l generalizing cs with
  | nil =>
    simp only [mapO, Option.some_inj] at h
    subst h
    simp
  | cons a l ih =>
    simp only [mapO] at h
    cases hfa : f a with
    | none => rw [hfa] at h; exact absurd h (by simp)
    | some c =>
      rw [hfa] at h
      cases hml : mapO f l with
      | none => rw [hml] at h; exact absurd h (by simp)
      | some cs' =>
        rw [hml] at h
        simp only [Option.some_inj] at h
        subst h
        simp only [List.flatten_cons, List.mem_append, ih cs' hml]
        constructor
        · rintro (hx | ⟨q, hq, d, hd, hx⟩)
          · exact ⟨a, by simp, c, hfa, hx⟩
          · exact ⟨q, by simp [hq], d, hd, hx⟩
        · rintro ⟨q, hq, d, hd, hx⟩
          rcases List.mem_cons.mp hq with rfl | hq
          · rw [hfa] at hd
            cases hd
            exact Or.inl hx
          · exact Or.inr ⟨q, hq, d, hd, hx⟩

/-- One-step unfolding of the staleness loop. -/
lemma modifiedAux_succ (w : Writer) (fs : FS) (directory path : String)
    (d : Nat) (fr : List String) (m : Int) :
    Writer.modifiedAux w fs directory path (d + 1) fr m =
      match expandIncludes w fs directory fr with
      | none => none
      | some fr' =>
        match mapO (fun p => fs.getmtime (pathJoin directory p)) (fr' ++ [path]) with
        | none => none
        | some ms =>
          match pyMax ms with
          | none => none
          | some mx => Writer.modifiedAux w fs directory path d fr' (max mx m) := rfl

/-- One-step unfolding of the frontier collection. -/
lemma collectIncludes_succ (w : Writer) (fs : FS) (directory : String)
    (d : Nat) (fr : List String) :
    collectIncludes w fs directory (d + 1) fr =
      match expandIncludes w fs directory fr with
      | none => none
      | some fr' =>
        (collectIncludes w fs directory d fr').map (fun rest => fr' ++ rest) := rfl

/-- The loop of `modified`, re-expressed: after `d + 1` expansions the running
maximum is the initial value joined with the mtimes of `path` and of every
file visited by the successive frontiers. -/
lemma modifiedAux_spec (w : Writer) (fs : FS) (directory path : String)
    (d : Nat) (fr : List String) (m0 : Int) :
    Writer.modifiedAux w fs directory path (d + 1) fr m0 =
      (collectIncludes w fs directory (d + 1) fr).bind fun c =>
        (mapO (fun p => fs.getmtime (pathJoin directory p)) c).bind fun ms =>
          (fs.getmtime (pathJoin directory path)).map fun pm =>
            foldMax (max m0 pm) ms := by
  induction d generalizing fr m0 with
  | zero =>
    rw [modifiedAux_succ, collectIncludes_succ]
    cases hfr : expandIncludes w fs directory fr with
    | none => rfl
    | some fr' =>
      cases hms₁ : mapO (fun p => fs.getmtime (pathJoin directory p)) fr' with
      | none => simp [mapO_append, hms₁, collectIncludes]
      | some ms₁ =>
        cases hpm : fs.getmtime (pathJoin directory path) with
        | none => simp [mapO_append, mapO_singleton, hms₁, hpm, collectIncludes]
        | some pm =>
          simp [mapO_append, mapO_singleton, hms₁, hpm, collectIncludes,
            pyMax_append_singleton, Writer.modifiedAux, foldMax_max_left,
            max_comm]
  | succ d ih =>
    rw [modifiedAux_succ, collectIncludes_succ]
    cases hfr : expandIncludes w fs directory fr with
    | none => rfl
    | some fr' =>
      cases hms₁ : mapO (fun p => fs.getmtime (pathJoin directory p)) fr' with
      | none =>
        cases hc' : collectIncludes w fs directory (d + 1) fr' with
        | none => simp [mapO_append, hms₁, hc']
        | some c' => simp [mapO_append, hms₁, hc']
      | some ms₁ =>
        cases hpm : fs.getmtime (pathJoin directory path) with
        | none =>
          cases hc' : collectIncludes w fs directory (d + 1) fr' with
          | none => simp [mapO_append, mapO_singleton, hms₁, hpm, hc']
          | some c' =>
            cases hmc' : mapO (fun p => fs.getmtime (pathJoin directory p)) c' with
            | none => simp [mapO_append, mapO_singleton, hms₁, hpm, hc', hmc']
            | some ms' => simp [mapO_append, mapO_singleton, hms₁, hpm, hc', hmc']
        | some pm =>
          cases hc' : collectIncludes w fs directory (d + 1) fr' with
          | none =>
            simp [mapO_append, mapO_singleton, hms₁, hpm, hc',
              pyMax_append_singleton, ih]
          | some c' =>
            cases hmc' : mapO (fun p => fs.getmtime (pathJoin directory p)) c' with
            | none =>
              simp [mapO_append, mapO_singleton, hms₁, hpm, hc', hmc',
                pyMax_append_singleton, ih]
            | some ms' =>
              have hle : pm ≤ foldMax pm ms₁ := le_foldMax pm ms₁
              simp only [mapO_append, mapO_singleton, hms₁, hpm, hc', hmc',
                pyMax_append_singleton, ih, Option.map_some', Option.some_bind,
                foldMax_append]
              congr 2
              rw [max_eq_left (le_trans hle (le_max_left _ _)),
                foldMax_max_left, max_comm]

/-- Reading only: `includesfor` depends on the filesystem through `read`
alone. -/
lemma includesfor_congr {fs fs' : FS} (hread : ∀ p, fs'.read p = fs.read p)
    (w : Writer) (directory path : String) :
    w.includesfor fs' directory path = w.includesfor fs directory path := by
  unfold Writer.includesfor
  cases w.uses <;> simp [hread]

lemma expandIncludes_congr {fs fs' : FS} (hread : ∀ p, fs'.read p = fs.read p)
    (w : Writer) (directory : String) (fr : List String) :
    expandIncludes w fs' directory fr = expandIncludes w fs directory fr := by
  unfold expandIncludes
  rw [mapO_congr (fun p _ => includesfor_congr hread w directory p)]

lemma collectIncludes_congr {fs fs' : FS} (hread : ∀ p, fs'.read p = fs.read p)
    (w : Writer) (directory : String) (d : Nat) (fr : List String) :
    collectIncludes w fs' directory d fr = collectIncludes w fs directory d fr := by
  induction d generalizing fr with
  | zero => rfl
  | succ d ih =>
    rw [collectIncludes_succ, collectIncludes_succ, expandIncludes_congr hread]
    cases expandIncludes w fs directory fr with
    | none => rfl
    | some fr' => simp [ih]

/-! ## Claim C1: the staleness check -/

/-- C1 (amended): `Writer.modified (directory, path) dest` returns true iff
`dest` does not exist or its mtime is strictly less than the maximum of the
initial sentinel `-1`, the mtime of `path` itself, and the mtimes of every
file visited by the six `includesfor` frontier expansions starting from
`path` (the list `collectIncludes ... 6 [path]`); moreover the result depends
only on file contents, on the mtimes of `path` and of those visited files,
and on `dest` — so an mtime change occurring only in a file first reachable
beyond include-depth 6 cannot change the result. -/
theorem modified_depth_bounded_mtime_max
    (w : Writer) (fs : FS) (directory path dest : String) (b : Bool)
    (c : List String) (ms : List Int) (pm : Int)
    (hc : collectIncludes w fs directory 6 [path] = some c)
    (hms : mapO (fun p => fs.getmtime (pathJoin directory p)) c = some ms)
    (hpm : fs.getmtime (pathJoin directory path) = some pm)
    (hb : w.modified fs directory path dest = some b) :
    (b = true ↔ (fs.isfile dest = false ∨
      ∃ dm, fs.getmtime dest = some dm ∧ dm < foldMax (max (-1) pm) ms)) ∧
    ∀ fs' : FS, (∀ p, fs'.read p = fs.read p) →
      (∀ p ∈ path :: c,
        fs'.getmtime (pathJoin directory p) = fs.getmtime (pathJoin directory p)) →
      fs'.isfile dest = fs.isfile dest →
      fs'.getmtime dest = fs.getmtime dest →
      w.modified fs' directory path dest = some b := by
  have h6 : Writer.modifiedAux w fs directory path 6 [path] (-1) =
      some (foldMax (max (-1) pm) ms) := by
    rw [show (6 : Nat) = 5 + 1 from rfl, modifiedAux_spec, hc]
    simp [hms, hpm]
  unfold Writer.modified at hb
  rw [h6] at hb
  constructor
  · cases hf : fs.files dest with
    | none =>
      simp only [FS.isfile, FS.getmtime, hf, Option.isSome_none,
        Bool.false_eq_true, if_false, Option.some_inj] at hb
      simp [← hb, FS.isfile, FS.getmtime, hf]
    | some f =>
      simp only [FS.isfile, FS.getmtime, hf, Option.isSome_some, if_true,
        Option.map_some', Option.some_inj] at hb
      simp [← hb, FS.isfile, FS.getmtime, hf]
  · intro fs' hread hmt hisf hgmt
    have hc' : collectIncludes w fs' directory 6 [path] = some c := by
      rw [collectIncludes_congr hread]
      exact hc
    have hms' : mapO (fun p => fs'.getmtime (pathJoin directory p)) c = some ms := by
      rw [mapO_congr (fun p hp => hmt p (List.mem_cons_of_mem _ hp))]
      exact hms
    have hpm' : fs'.getmtime (pathJoin directory path) = some pm := by
      rw [hmt path (List.mem_cons_self _ _)]
      exact hpm
    have h6' : Writer.modifiedAux w fs' directory path 6 [path] (-1) =
        some (foldMax (max (-1) pm) ms) := by
      rw [show (6 : Nat) = 5 + 1 from rfl, modifiedAux_spec, hc']
      simp [hms', hpm']
    unfold Writer.modified
    rw [h6', hisf, hgmt]
    exact hb

/-- Filesystem of the C1 counterexample: both the source and the destination
predate the epoch, so every real mtime lies below the `-1` sentinel that
initialises the running maximum in `modified`. -/
def fsPre : FS :=
  ⟨fun p =>
    if p = "src/a.txt" then some ⟨"", -10⟩
    else if p = "out/a.txt" then some ⟨"", -5⟩
    else none⟩

/-- C1 as literally stated is false: here the destination exists, no file is
reachable via includes (`collectIncludes` is empty), the maximum mtime over
the source alone is `-10`, and the destination's mtime `-5` is not below it —
yet `modified` returns true, because the loop's running maximum starts at the
sentinel `-1`, which exceeds every mtime of this pre-epoch filesystem. -/
theorem modified_sentinel_counterexample :
    Writer.modified ⟨none⟩ fsPre "src" "a.txt" "out/a.txt" = some true ∧
    collectIncludes ⟨none⟩ fsPre "src" 6 ["a.txt"] = some [] ∧
    fsPre.getmtime (pathJoin "src" "a.txt") = some (-10) ∧
    fsPre.isfile "out/a.txt" = true ∧
    fsPre.getmtime "out/a.txt" = some (-5) ∧
    ¬((-5 : Int) < foldMax (-10) []) := by
  refine ⟨by decide, by decide, by decide, by decide, by decide, by decide⟩

/-- Witness filesystem: `main.scss` (mtime 10) includes `lib.scss`
(mtime 20); the destination `out/main.css` has mtime 15. -/
def fsW : FS :=
  ⟨fun p =>
    if p = "src/main.scss" then some ⟨"@import", 10⟩
    else if p = "src/lib.scss" then some ⟨"", 20⟩
    else if p = "out/main.css" then some ⟨"", 15⟩
    else none⟩

/-- Witness writer: the include extractor captures `lib.scss` from any text
starting with `@`. -/
def wW : Writer :=
  ⟨some (fun s => if headChar s = some '@' then ["lib.scss"] else [])⟩

theorem modified_depth_bounded_mtime_max_witness :
    Writer.modified wW fsW "src" "main.scss" "out/main.css" = some true ∧
    (true = true ↔ (fsW.isfile "out/main.css" = false ∨
      ∃ dm, fsW.getmtime "out/main.css" = some dm ∧
        dm < foldMax (max (-1) 10) [20])) :=
  ⟨by decide,
   (modified_depth_bounded_mtime_max wW fsW "src" "main.scss" "out/main.css"
     true ["lib.scss"] [20] 10 (by decide) (by decide) (by decide)
     (by decide)).1⟩

/-! ## Claim C2: filtering out include targets -/

/-- C2: `Writer.filter files directory` returns exactly the candidates that
are not include targets of the set, include targets being the union of
`includesfor` over all candidates; and it is the identity when the variant
has no include pattern. -/
theorem filter_removes_include_targets
    (w : Writer) (fs : FS) (directory : String) (input out : List String)
    (h : w.filter fs directory input = some out) :
    (∀ p, p ∈ out ↔ (p ∈ input ∧
      ¬ ∃ q ∈ input, ∃ c, w.includesfor fs directory q = some c ∧ p ∈ c)) ∧
    (w.uses = none → out = input) := by
  unfold Writer.filter at h
  cases hcss : mapO (fun p => w.includesfor fs directory p) input with
  | none => rw [hcss] at h; exact absurd h (by simp)
  | some css =>
    rw [hcss] at h
    simp only [Option.some_inj] at h
    subst h
    constructor
    · intro p
      rw [List.mem_filter]
      constructor
      · rintro ⟨hp, hnot⟩
        refine ⟨hp, ?_⟩
        simp only [Bool.not_eq_true', decide_eq_false_iff_not] at hnot
        rw [← mapO_mem_flatten (fun p => w.includesfor fs directory p) input css hcss p]
        exact hnot
      · rintro ⟨hp, hnot⟩
        refine ⟨hp, ?_⟩
        simp only [Bool.not_eq_true', decide_eq_false_iff_not]
        rw [mapO_mem_flatten (fun p => w.includesfor fs directory p) input css hcss p]
        exact hnot
    · intro hu
      have hempty : ∀ p : String, p ∉ css.flatten := by
        intro p hp
        rw [mapO_mem_flatten (fun p => w.includesfor fs directory p) input css hcss p] at hp
        rcases hp with ⟨q, hq, cc, hcc, hpc⟩
        unfold Writer.includesfor at hcc
        rw [hu] at hcc
        cases hcc
        exact absurd hpc (List.not_mem_nil p)
      exact List.filter_eq_self.mpr (fun a _ => by simp [hempty a])

theorem filter_removes_include_targets_witness :
    Writer.filter wW fsW "src" ["main.scss", "lib.scss"] = some ["main.scss"] ∧
    ("lib.scss" ∈ ["main.scss"] ↔ ("lib.scss" ∈ ["main.scss", "lib.scss"] ∧
      ¬ ∃ q ∈ ["main.scss", "lib.scss"], ∃ c,
        Writer.includesfor wW fsW "src" q = some c ∧ "lib.scss" ∈ c)) :=
  ⟨by decide,
   (filter_removes_include_targets wW fsW "src" ["main.scss", "lib.scss"]
     ["main.scss"] (by decide)).1 "lib.scss"⟩

/-! ## Claim C4: the skip decision of the base write -/

lemma mkfile_events (st : St) (c dest : String) (now : Int) (dryrun : Bool) :
    (mkfile st c dest now dryrun).events = st.events ++ [Event.write ns dest] := by
  unfold mkfile St.emit St.setFile
  cases dryrun <;> rfl

/-- C4: `Writer.write` skips — emits exactly a skip event and leaves
filesystem and logs untouched — precisely when `force` is false and
`modified` returned false; with `force = true` it always proceeds. -/
theorem write_skip_iff
    (w : Writer) (gen : FS → String → String → Option String) (st : St)
    (directory path dest : String) (force dryrun : Bool) (now : Int) (st' : St)
    (h : Writer.write w gen st directory path dest force dryrun now = some st') :
    (st'.events = st.events ++ [Event.skip ns dest] ∧ st'.fs = st.fs ∧
      st'.logs = st.logs)
    ↔ (force = false ∧ w.modified st.fs directory path dest = some false) := by
  unfold Writer.write at h
  cases force with
  | true =>
    rw [if_pos rfl] at h
    cases hg : gen st.fs (pathJoin directory path) dest with
    | none => rw [hg] at h; exact absurd h (by simp)
    | some cnt =>
      rw [hg] at h
      simp only [Option.map_some', Option.some_inj] at h
      subst h
      constructor
      · rintro ⟨hev, -, -⟩
        rw [mkfile_events] at hev
        have := List.append_cancel_left hev
        simp at this
      · rintro ⟨hf, -⟩
        cases hf
  | false =>
    rw [if_neg (fun hh => Bool.noConfusion hh)] at h
    cases hm : w.modified st.fs directory path dest with
    | none => rw [hm] at h; exact absurd h (by simp)
    | some b =>
      rw [hm] at h
      cases b with
      | false =>
        simp only [Option.some_inj] at h
        subst h
        exact ⟨fun _ => ⟨rfl, rfl⟩, fun _ => ⟨rfl, rfl, rfl⟩⟩
      | true =>
        cases hg : gen st.fs (pathJoin directory path) dest with
        | none => rw [hg] at h; exact absurd h (by simp)
        | some cnt =>
          rw [hg] at h
          simp only [Option.map_some', Option.some_inj] at h
          subst h
          constructor
          · rintro ⟨hev, -, -⟩
            rw [mkfile_events] at hev
            have := List.append_cancel_left hev
            simp at this
          · rintro ⟨-, hm'⟩
            simp at hm'

/-- The skip state of the C4 witness. -/
def stW : St := ⟨fsW, [], []⟩

/-- Fresh-destination filesystem for the skip side of the C4 witness:
`out/main.css` is newer than `main.scss` and its include `lib.scss`. -/
def fsF : FS :=
  ⟨fun p =>
    if p = "src/main.scss" then some ⟨"@import", 10⟩
    else if p = "src/lib.scss" then some ⟨"", 20⟩
    else if p = "out/main.css" then some ⟨"", 30⟩
    else none⟩

/-- The C4 skip state over the fresh filesystem. -/
def stF : St := ⟨fsF, [], []⟩

theorem write_skip_iff_witness :
    Writer.write wW Writer.generate stF "src" "main.scss" "out/main.css"
      false false 99 = some (stF.emit (Event.skip ns "out/main.css")) ∧
    ((stF.emit (Event.skip ns "out/main.css")).events =
        stF.events ++ [Event.skip ns "out/main.css"] ∧
      (stF.emit (Event.skip ns "out/main.css")).fs = stF.fs ∧
      (stF.emit (Event.skip ns "out/main.css")).logs = stF.logs) :=
  ⟨rfl,
   (write_skip_iff wW Writer.generate stF "src" "main.scss" "out/main.css"
     false false 99 (stF.emit (Event.skip ns "out/main.css")) rfl).mpr
     ⟨rfl, by decide⟩⟩

/-! ## Claims C3, C6, C7: the external-process write -/

/-- Evaluation of the failure branch of `System.write`. -/
lemma system_write_error_eq (w : Writer) (target : String) (st : St)
    (directory path dest : String) (force dryrun : Bool) (tmp : String)
    (now : Int) (e : SysErr)
    (hp : (if force then some true
        else w.modified st.fs directory path
          (System.destFor directory path dest target)) = some true) :
    System.write w target st directory path dest force dryrun tmp now
        (Except.error e) =
      some (((if (st.setFile tmp ⟨"", now⟩).fs.isfile
                (System.destFor directory path dest target) then
              (st.setFile tmp ⟨"", now⟩).unlink
                (System.destFor directory path dest target)
            else st.setFile tmp ⟨"", now⟩).log
          (e.cls ++ ": " ++ e.msg)).unlink tmp) := by
  unfold System.write
  dsimp only
  rw [hp]

/-- Evaluation of the success branch of `System.write`. -/
lemma system_write_ok_eq (w : Writer) (target : String) (st : St)
    (directory path dest : String) (force dryrun : Bool) (tmp : String)
    (now : Int) (res : String)
    (hp : (if force then some true
        else w.modified st.fs directory path
          (System.destFor directory path dest target)) = some true) :
    System.write w target st directory path dest force dryrun tmp now
        (Except.ok res) =
      some ((mkfile ((st.setFile tmp ⟨"", now⟩).setFile tmp ⟨res, now⟩) res
        (System.destFor directory path dest target) now dryrun).unlink tmp) := by
  unfold System.write
  dsimp only
  rw [hp]
  simp [St.setFile, FS.set, FS.read]

lemma St.unlink_files_self (st : St) (p : String) :
    (st.unlink p).fs.files p = none := by
  simp [St.unlink, FS.remove]

lemma St.unlink_files_other (st : St) {p q : String} (h : q ≠ p) :
    (st.unlink p).fs.files q = st.fs.files q := by
  simp [St.unlink, FS.remove, h]

lemma St.log_fs (st : St) (m : String) : (st.log m).fs = st.fs := rfl

lemma worker_cons (writeOne : St → String → Option St) (st st' : St)
    (p : String) (ps : List String) (h : writeOne st p = some st') :
    worker writeOne st (p :: ps) = worker writeOne st' ps := by
  show (match writeOne st p with
    | none => none
    | some st'' => worker writeOne st'' ps) = worker writeOne st' ps
  rw [h]

/-- C3: when spawning the external command fails (OS error or pipeline
execution error), `System.write` returns normally (no exception escapes), the
destination file is absent afterwards (deleted when it existed), the failure
is appended to the log, no event is emitted — and the bucket loop therefore
continues with the remaining files. -/
theorem system_write_error_resilient
    (w : Writer) (target : String) (st : St) (directory path dest : String)
    (force dryrun : Bool) (tmp : String) (now : Int) (e : SysErr)
    (hp : (if force then some true
        else w.modified st.fs directory path
          (System.destFor directory path dest target)) = some true) :
    ∃ st', System.write w target st directory path dest force dryrun tmp now
        (Except.error e) = some st' ∧
      st'.fs.files (System.destFor directory path dest target) = none ∧
      st'.logs = st.logs ++ [e.cls ++ ": " ++ e.msg] ∧
      st'.events = st.events ∧
      ∀ (writeOne : St → String → Option St) (rest : List String),
        writeOne st path = System.write w target st directory path dest force
          dryrun tmp now (Except.error e) →
        worker writeOne st (path :: rest) = worker writeOne st' rest := by
  refine ⟨_, system_write_error_eq w target st directory path dest force dryrun
    tmp now e hp, ?_, ?_, ?_, ?_⟩
  · by_cases htd : System.destFor directory path dest target = tmp
    · rw [htd]
      exact St.unlink_files_self _ _
    · rw [St.unlink_files_other _ htd, St.log_fs]
      cases hiz : (st.setFile tmp ⟨"", now⟩).fs.isfile
          (System.destFor directory path dest target) with
      | true =>
        rw [if_pos rfl]
        exact St.unlink_files_self _ _
      | false =>
        rw [if_neg (fun hh => Bool.noConfusion hh)]
        have hiz' := hiz
        unfold FS.isfile at hiz'
        exact Option.not_isSome_iff_eq_none.mp (by simp [hiz'])
  · cases hiz : (st.setFile tmp ⟨"", now⟩).fs.isfile
        (System.destFor directory path dest target) with
    | true => simp [St.unlink, St.log, St.setFile, hiz]
    | false => simp [St.unlink, St.log, St.setFile, hiz]
  · cases hiz : (st.setFile tmp ⟨"", now⟩).fs.isfile
        (System.destFor directory path dest target) with
    | true => simp [St.unlink, St.log, St.setFile, St.emit, hiz]
    | false => simp [St.unlink, St.log, St.setFile, St.emit, hiz]
  · intro writeOne rest hwo
    exact worker_cons writeOne st _ path rest
      (hwo.trans (system_write_error_eq w target st directory path dest force
        dryrun tmp now e hp))

/-- Pre-state of the C3 witness and C6 evaluation: a stale destination
`out/a.css` exists. -/
def stC6 : St :=
  ⟨⟨fun p =>
    if p = "static/a.scss" then some ⟨"x", 10⟩
    else if p = "out/a.css" then some ⟨"old", 5⟩
    else none⟩, [], []⟩

theorem system_write_error_resilient_witness :
    ∃ st', System.write ⟨none⟩ ".css" stC6 "static" "a.scss" "out/a.scss"
        false false "cache/tmp1" 99
        (Except.error ⟨"OSError", "sass missing"⟩) = some st' ∧
      st'.fs.files (System.destFor "static" "a.scss" "out/a.scss" ".css") = none ∧
      st'.logs = stC6.logs ++ ["OSError" ++ ": " ++ "sass missing"] ∧
      st'.events = stC6.events ∧
      ∀ (writeOne : St → String → Option St) (rest : List String),
        writeOne stC6 "a.scss" = System.write ⟨none⟩ ".css" stC6 "static"
          "a.scss" "out/a.scss" false false "cache/tmp1" 99
          (Except.error ⟨"OSError", "sass missing"⟩) →
        worker writeOne stC6 ("a.scss" :: rest) = worker writeOne st' rest :=
  system_write_error_resilient ⟨none⟩ ".css" stC6 "static" "a.scss"
    "out/a.scss" false false "cache/tmp1" 99 ⟨"OSError", "sass missing"⟩
    (by decide)

/-- C6: the code deletes an existing destination on compiler failure even
under `dryrun = true` — here a dryrun invocation with a failing compiler
removes the pre-existing `out/a.css`, mutating the output tree. -/
theorem system_write_dryrun_deletes_dest :
    stC6.fs.files "out/a.css" = some ⟨"old", 5⟩ ∧
    System.destFor "static" "a.scss" "out/a.scss" ".css" = "out/a.css" ∧
    (System.write ⟨none⟩ ".css" stC6 "static" "a.scss" "out/a.scss" false true
      "cache/tmp1" 99 (Except.error ⟨"OSError", "sass missing"⟩)).map
        (fun st' => st'.fs.files "out/a.css") = some none := by
  exact ⟨by decide, by decide, by decide⟩

/-- C7: on every exit path of `System.write` that reaches the creation of the
temporary file — successful compilation as well as both spawn/pipeline
failure — the temporary file is removed before the function returns. -/
theorem system_write_tmp_always_removed
    (w : Writer) (target : String) (st : St) (directory path dest : String)
    (force dryrun : Bool) (tmp : String) (now : Int)
    (sysRes : Except SysErr String)
    (hp : (if force then some true
        else w.modified st.fs directory path
          (System.destFor directory path dest target)) = some true) :
    ∃ st', System.write w target st directory path dest force dryrun tmp now
        sysRes = some st' ∧ st'.fs.files tmp = none := by
  cases sysRes with
  | error e =>
    refine ⟨_, system_write_error_eq w target st directory path dest force
      dryrun tmp now e hp, ?_⟩
    simp [St.unlink, FS.remove]
  | ok res =>
    refine ⟨_, system_write_ok_eq w target st directory path dest force
      dryrun tmp now res hp, ?_⟩
    simp [St.unlink, FS.remove]

theorem system_write_tmp_always_removed_witness :
    ∃ st', System.write ⟨none⟩ ".css" stC6 "static" "a.scss" "out/a.scss"
        false false "cache/tmp1" 99 (Except.ok "body") = some st' ∧
      st'.fs.files "cache/tmp1" = none :=
  system_write_tmp_always_removed ⟨none⟩ ".css" stC6 "static" "a.scss"
    "out/a.scss" false false "cache/tmp1" 99 (Except.ok "body") (by decide)

/-! ## Claim C8: include resolution -/

/-- C8: with no include pattern `includesfor` returns the empty set for every
filesystem (without reading the file); with a pattern it returns the captured
references of the first 512 characters, each resolved against
`dirname(path)`; and the result depends on the file only through its first
512 characters. -/
theorem includesfor_spec (w : Writer) (fs : FS) (directory path : String) :
    (w.uses = none → ∀ fs' : FS, w.includesfor fs' directory path = some []) ∧
    (∀ u, w.uses = some u → ∀ c, fs.read (pathJoin directory path) = some c →
      w.includesfor fs directory path =
        some ((u (strTake c 512)).map fun m => pathJoin (pyDirname path) m)) ∧
    (∀ fs' : FS, ∀ c c', fs.read (pathJoin directory path) = some c →
      fs'.read (pathJoin directory path) = some c' →
      strTake c 512 = strTake c' 512 →
      w.includesfor fs directory path = w.includesfor fs' directory path) := by
  refine ⟨?_, ?_, ?_⟩
  · intro hu fs'
    unfold Writer.includesfor
    rw [hu]
  · intro u hu c hc
    unfold Writer.includesfor
    rw [hu, hc]
    rfl
  · intro fs' c c' hc hc' htake
    unfold Writer.includesfor
    cases hu : w.uses with
    | none => rfl
    | some u =>
      rw [hc, hc']
      simp [htake]

theorem includesfor_spec_witness :
    Writer.includesfor wW fsW "src" "main.scss" = some ["lib.scss"] :=
  ((includesfor_spec wW fsW "src" "main.scss").2.1
    (fun s => if headChar s = some '@' then ["lib.scss"] else []) rfl
    "@import" (by decide)).trans (by decide)

/-! ## Claims C9 and C10: the theme-directory guard -/

/-- C9: for a file whose directory is the configured theme directory,
`HTML.write` and the inherited `XML.write` return the state unchanged — no
staleness check, no event, no output — and for any other directory both
equal the plain-copy `Writer.write`. -/
theorem html_xml_theme_guard
    (w : Writer) (gen : FS → String → String → Option String) (theme : String)
    (st : St) (directory path dest : String) (force dryrun : Bool) (now : Int) :
    (directory = theme →
      HTML.write w gen theme st directory path dest force dryrun now = some st ∧
      XML.write w gen theme st directory path dest force dryrun now = some st) ∧
    (directory ≠ theme →
      HTML.write w gen theme st directory path dest force dryrun now =
        Writer.write w gen st directory path dest force dryrun now ∧
      XML.write w gen theme st directory path dest force dryrun now =
        Writer.write w gen st directory path dest force dryrun now) := by
  constructor
  · intro h
    unfold XML.write HTML.write
    rw [if_pos h]
    exact ⟨rfl, rfl⟩
  · intro h
    unfold XML.write HTML.write
    rw [if_neg h]
    exact ⟨rfl, rfl⟩

theorem html_xml_theme_guard_witness :
    HTML.write ⟨none⟩ Writer.generate "theme" stW "theme" "a.html" "out/a.html"
      false false 0 = some stW ∧
    XML.write ⟨none⟩ Writer.generate "theme" stW "theme" "a.html" "out/a.html"
      false false 0 = some stW :=
  (html_xml_theme_guard ⟨none⟩ Writer.generate "theme" stW "theme" "a.html"
    "out/a.html" false false 0).1 rfl

/-- C10: `Template.write` inherits the theme-directory guard: for a file in
the theme directory it returns the state unchanged — no render (the engine
collaborator is never consulted: every `render` yields the same result), no
persist, no event. -/
theorem template_write_theme_guard
    (w : Writer) (theme target : String) (st : St)
    (directory path dest : String) (force dryrun : Bool) (now : Int)
    (h : directory = theme) :
    ∀ render render' : String → Option String,
      Template.write w render theme target st directory path dest force dryrun
          now = some st ∧
      Template.write w render theme target st directory path dest force dryrun
          now =
        Template.write w render' theme target st directory path dest force
          dryrun now := by
  intro render render'
  unfold Template.write HTML.write
  rw [if_pos h, if_pos h]
  exact ⟨rfl, rfl⟩

theorem template_write_theme_guard_witness :
    Template.write ⟨none⟩ (fun _ => none) "theme" ".html" stW "theme" "a.html"
      "out/a.html" false false 0 = some stW :=
  (template_write_theme_guard ⟨none⟩ "theme" ".html" stW "theme" "a.html"
    "out/a.html" false false 0 rfl (fun _ => none) (fun _ => none)).1

/-! ## Claim C5: the destination-extension rewrite -/

lemma pyReplaceFuel_nil (old new : List Char) (n : Nat) :
    pyReplaceFuel old new n [] = [] := by cases n <;> rfl

lemma pyReplaceFuel_cons (old new : List Char) (n : Nat) (c : Char)
    (rest : List Char) :
    pyReplaceFuel old new (n + 1) (c :: rest) =
      if old ≠ [] ∧ old.isPrefixOf (c :: rest) then
        new ++ pyReplaceFuel old new n (rest.drop (old.length - 1))
      else c :: pyReplaceFuel old new n rest := rfl

/-- When the only occurrence of `old` in `pre ++ old` is the trailing one,
the replacement scan copies `pre` verbatim and swaps the suffix. -/
lemma pyReplaceFuel_unique (old new : List Char) (hold : old ≠ []) :
    ∀ (pre : List Char) (n : Nat), (pre ++ old).length ≤ n →
    (∀ i < pre.length, ¬ old.isPrefixOf ((pre ++ old).drop i)) →
    pyReplaceFuel old new n (pre ++ old) = pre ++ new := by
  intro pre
  induction pre with
  | nil =>
    intro n hn honly
    cases hold' : old with
    | nil => exact absurd hold' hold
    | cons c rest =>
      subst hold'
      cases n with
      | zero => simp at hn
      | succ m =>
        show pyReplaceFuel (c :: rest) new (m + 1) (c :: rest) = new
        rw [pyReplaceFuel_cons,
          if_pos ⟨hold, List.isPrefixOf_iff_prefix.mpr (List.prefix_refl _)⟩]
        simp [List.drop_length, pyReplaceFuel_nil]
  | cons c pre' ih =>
    intro n hn honly
    cases n with
    | zero => simp at hn
    | succ m =>
      show pyReplaceFuel old new (m + 1) (c :: (pre' ++ old)) =
        c :: (pre' ++ new)
      rw [pyReplaceFuel_cons, if_neg ?hneg]
      case hneg =>
        rintro ⟨-, hpref⟩
        exact honly 0 (by simp) hpref
      congr 1
      refine ih m ?_ ?_
      · simpa using Nat.le_of_succ_le_succ (by simpa using hn)
      · intro i hi
        have := honly (i + 1) (by simpa using Nat.succ_lt_succ hi)
        simpa [List.drop_succ_cons] using this

/-- Python `str.replace` on a string whose only occurrence of the pattern is
its trailing extension swaps exactly that extension. -/
lemma pyReplace_unique_occurrence (dest ext target : String) (pre : List Char)
    (hext : ext ≠ "") (hdest : dest.data = pre ++ ext.data)
    (honly : ∀ i < pre.length, ¬ ext.data.isPrefixOf (dest.data.drop i)) :
    pyReplace dest ext target = ⟨pre ++ target.data⟩ := by
  have hne : ext.data ≠ [] := by
    intro h
    apply hext
    cases ext with
    | mk l =>
      simp only at h
      subst h
      rfl
  unfold pyReplace
  rw [if_neg hne]
  rw [hdest] at honly ⊢
  congr 1
  exact pyReplaceFuel_unique ext.data target.data hne pre _ (le_refl _) honly

/-- The destination as C5 describes it: `dest` with only its final extension
replaced by `target` (stated from the spec's words, for comparison with the
implementation's `str.replace`). -/
def specSwapExt (dest target : String) : String :=
  ⟨(dest.data.take (dest.data.length - (pySplitextExt dest).data.length)) ++
    target.data⟩

/-- C5 as stated is false: for source `static/a.scss.scss` with destination
`out/a.scss.scss` the code replaces every occurrence of `.scss`, giving
`out/a.css.css`, while replacing only the final extension would give
`out/a.scss.css`. -/
theorem destFor_counterexample :
    pySplitextExt (pathJoin "static" "a.scss.scss") = ".scss" ∧
    System.destFor "static" "a.scss.scss" "out/a.scss.scss" ".css" =
      "out/a.css.css" ∧
    Template.destFor "a.scss.scss" "out/a.scss.scss" ".css" =
      "out/a.css.css" ∧
    specSwapExt "out/a.scss.scss" ".css" = "out/a.scss.css" ∧
    ("out/a.css.css" : String) ≠ "out/a.scss.css" :=
  ⟨by decide, by decide, by decide, by decide, by decide⟩

/-- C5 (amended): `Template.write` and `System.write` compute the actual
destination with Python `str.replace`, replacing every occurrence of the
source's final extension; whenever that extension has no earlier occurrence
in the destination (the common case), the result is exactly the destination
with its trailing extension swapped for `target`. -/
theorem destFor_swaps_unique_extension
    (directory path dest target : String) (pre : List Char) :
    (pySplitextExt (pathJoin directory path) ≠ "" →
      dest.data = pre ++ (pySplitextExt (pathJoin directory path)).data →
      (∀ i < pre.length,
        ¬ (pySplitextExt (pathJoin directory path)).data.isPrefixOf
          (dest.data.drop i)) →
      System.destFor directory path dest target = ⟨pre ++ target.data⟩) ∧
    (pySplitextExt path ≠ "" →
      dest.data = pre ++ (pySplitextExt path).data →
      (∀ i < pre.length,
        ¬ (pySplitextExt path).data.isPrefixOf (dest.data.drop i)) →
      Template.destFor path dest target = ⟨pre ++ target.data⟩) := by
  constructor
  · intro h1 h2 h3
    unfold System.destFor
    exact pyReplace_unique_occurrence dest _ target pre h1 h2 h3
  · intro h1 h2 h3
    unfold Template.destFor
    exact pyReplace_unique_occurrence dest _ target pre h1 h2 h3

theorem destFor_swaps_unique_extension_witness :
    System.destFor "static" "a.scss" "out/a.scss" ".css" = "out/a.css" :=
  ((destFor_swaps_unique_extension "static" "a.scss" "out/a.scss" ".css"
    ("out/a".data)).1 (by decide) (by decide) (by decide)).trans (by decide)

end Acrylamid
